import Mathlib

/-!
Verification of the appgo `server` dispatch engine (handler.go) and the
`appgo` error-envelope code, as a shallow embedding in Lean.

The embedding follows the versioned variant of `handler.ServeHTTP`,
`newHandler`, `authByHeader`, `apiVersionFromHeader` and the `ApiError`
code.  Helpers from packages of the repository that are not in the source
under inspection (`toolkit/strutil`, `auth`, the `appgo` constants
`AnonymousId`, `RoleWebAdmin`, `ECodeRedirect`, and `IdFromStr`) are
modelled from the spec and documented as such; external collaborators
(the gorilla/schema query decoder, the token store) are abstracted
through the narrow interfaces the source uses.
-/

namespace Appgo

/-- Type `ErrCode` from the appgo package (an int). -/
abbrev ErrCode := Int

/-- The error-code constants of the appgo package. -/
def ECodeOK : ErrCode := 20000

def ECodeBadRequest : ErrCode := 40000

def ECodeUnauthorized : ErrCode := 40100

def ECodeForbidden : ErrCode := 40300

def ECodeNotFound : ErrCode := 40400

def ECodeInternal : ErrCode := 50000

def ECode3rdPartyAuthFailed : ErrCode := 50300

/-- Modelled from the spec: the document-mode-only `Redirect` error code
(`appgo.ECodeRedirect` is referenced by handler.go but its numeric value
is not in the source under inspection).  The value is chosen distinct
from the listed codes; no claim depends on it. -/
def ECodeRedirect : ErrCode := 30200

/-- Structure `ApiError`: `Code` serialized under json tag "errcode", `Msg` under
"msg". -/
structure ApiError where
  code : ErrCode
  msg : String
  deriving DecidableEq, Repr

/-- Constructor `NewApiErr`. -/
def NewApiErr (code : ErrCode) (msg : String) : ApiError := ⟨code, msg⟩

/-- A response writer in the state `http.ResponseWriter` evolves through
inside `ApiError.HttpError`: the status line written and the body bytes
accumulated. -/
structure Writer where
  status : Option Nat
  body : String
  deriving DecidableEq, Repr

/-- Function `http.Error(w, error, code)`: sets the status code and writes the
error text followed by a newline. -/
def httpError (w : Writer) (text : String) (code : Nat) : Writer :=
  { status := some code, body := w.body ++ text ++ "\n" }

/-- Minimal JSON string escaping, enough for `encoding/json` on the
messages that occur in the source (quote and backslash). -/
def jsonEscape (s : String) : String :=
  String.mk (s.data.foldr (fun c acc =>
    if c = '"' ∨ c = '\\' then '\\' :: c :: acc else c :: acc) [])

/-- Marshalling by `encoding/json` of an `ApiError` value, following the
struct tags `errcode` and `msg` on the source type. -/
def jsonOfApiError (e : ApiError) : String :=
  "\x7b\"errcode\":" ++ toString e.code ++ ",\"msg\":\"" ++ jsonEscape e.msg ++ "\"\x7d"

/-- Encoding `json.NewEncoder(w).Encode(e)`: appends the JSON of `e` and a
trailing newline to the body. -/
def encoderEncode (w : Writer) (e : ApiError) : Writer :=
  { w with body := w.body ++ jsonOfApiError e ++ "\n" }

/-- Method `ApiError.HttpError`: `code := 200; http.Error(w, "", code)` then
encode the error as JSON onto the writer. -/
def ApiError.HttpError (e : ApiError) (w : Writer) : Writer :=
  let code := 200
  encoderEncode (httpError w "" code) e

end Appgo

namespace Server

open Appgo

/-- Constant `maxVersion` in handler.go. -/
def maxVersion : Nat := 99

/-- Modelled from the spec: `strutil.FromInt` of the repository's
`toolkit/strutil` package (not in the source under inspection) renders an
integer in decimal. -/
def strutilFromInt (n : Nat) : String := toString n

/-- Modelled from the spec: `strutil.ToInt` of `toolkit/strutil` (not in
the source under inspection) parses a decimal header value, yielding 0
when the string is empty or not a number (the spec: "default 1, valid
range 1..99" for the version header, "default 0 if absent/unparseable"
for the config version; an absent header reads as the empty string). -/
def strutilToInt (s : String) : Nat :=
  if s ≠ "" ∧ s.data.all (fun c => c.isDigit) then
    s.data.foldl (fun acc c => acc * 10 + (c.toNat - 48)) 0
  else 0

/-- The sequence of method names probed by the registration loop of
`newHandler` for one verb, in order.  Follows the source exactly: the
loop variable `m` starts at the verb and the body executes
`if i > 1 \x7b m += strutil.FromInt(i) \x7d` before probing, so the appended
digits accumulate across iterations. -/
def probeKeys (verb : String) : List String :=
  (((List.range' 1 maxVersion).foldl
      (fun (p : String × List String) i =>
        let m := if i > 1 then p.1 ++ strutilFromInt i else p.1
        (m, m :: p.2))
      (verb, [])).2).reverse

/-- The method keys the spec's registration sentence describes: the bare
verb for version 1, verb immediately followed by the decimal version for
versions 2..99.  Stated from the spec's words, for comparison with
`probeKeys`. -/
def specKeys (verb : String) : List String :=
  (List.range' 1 maxVersion).map
    (fun i => if i > 1 then verb ++ strutilFromInt i else verb)

end Server

namespace Server

open Appgo

/-- Opaque success payload returned by a handler (`returns[0]`). -/
structure Data where
  val : Nat
  deriving DecidableEq, Repr

/-- Type `HandlerType`: `HandlerTypeJson` (structured data) or
`HandlerTypeHtml` (document mode). -/
inductive HandlerType
  | json
  | html
  deriving DecidableEq, Repr

/-- The non-reserved (query-decodable) part of an input type, as the
schema decoder sees it: the declared field names, and — abstracting the
per-kind string conversion of the external decoder — whether a value
string converts for a field. -/
structure InputShape where
  fields : List String
  convertOk : String → String → Bool

/-- The reserved slots of an Input Instance, each `none`/unset until the
dispatcher populates it. -/
structure InputSlots where
  userId : Option Int := none
  adminUserId : Option Int := none
  resourceId : Option Int := none
  content : Option Data := none
  requestSet : Bool := false
  confVer : Option Int := none
  deriving DecidableEq, Repr

/-- The trailing error value of a handler call: Go `nil`, a
`*appgo.ApiError`, or a non-nil error of any other type. -/
inductive ErrVal
  | nil
  | api (e : ApiError)
  | other (msg : String)
  deriving DecidableEq, Repr

/-- The value list a handler call returns: 1 value (error), 2 values
(data, error), 3 values (data, template-name, error), or any other
arity. -/
inductive CallResult
  | r1 (err : ErrVal)
  | r2 (d : Data) (err : ErrVal)
  | r3 (d : Data) (template : String) (err : ErrVal)
  | badArity (n : Nat)
  deriving DecidableEq, Repr

/-- Structure `httpFunc`: the Method Binding flags, the input shape, and the bound
callable (`funcValue`, modelled as a function of the populated reserved
slots). -/
structure httpFunc where
  requireAuth : Bool
  requireAdmin : Bool
  hasResId : Bool
  hasContent : Bool
  hasRequest : Bool
  hasConfVer : Bool
  dummyInput : Bool
  allowAnonymous : Bool
  inputShape : InputShape
  call : InputSlots → CallResult

/-- Structure `handler`: output kind, path, template, the method-key map, and the
token store's `Validate`. -/
structure handler where
  htype : HandlerType
  path : String
  template : String
  funcs : List (String × httpFunc)
  tsValidate : String → Bool

/-- Environment of appgo/auth package values the dispatcher consults but
whose definitions are not in the source under inspection, modelled from
the spec: the anonymous sentinel id (`appgo.AnonymousId`), the web-admin
role (`appgo.RoleWebAdmin`), and the local token decode
(`auth.Token.Validate`, "decode(token) -> (userId, role), pure/local"). -/
structure Env where
  anonymousId : Int
  roleWebAdmin : Int
  tokenValidate : String → Int × Int

/-- An incoming request, reduced to what `ServeHTTP` reads: verb, the
custom version / token / config-version headers (empty string when
absent), the parsed query, the `id` path variable, and the result of the
external JSON decode of the body against the content shape. -/
structure Request where
  method : String
  versionHeader : String
  tokenHeader : String
  confVerHeader : String
  query : List (String × String)
  pathId : String
  bodyDecode : Except String Data

/-- What got written to the response, at the renderer interface:
`renderError`, `renderData` (with the handler's payload or the empty
object), `renderHtml`, or `http.Redirect`. -/
inductive Response
  | apiErr (e : ApiError)
  | data (d : Data)
  | emptyObj
  | html (template : String) (d : Data)
  | redirect (url : String) (status : Nat)
  deriving DecidableEq, Repr

/-- The observable outcome of one `ServeHTTP` run: what was written
(`none` when nothing was), whether the bound callable was invoked, the
final reserved slots, and whether the admin branch (its authenticator
call and role check) executed. -/
structure Outcome where
  response : Option Response
  invoked : Bool
  slots : InputSlots
  adminChecked : Bool
  deriving DecidableEq, Repr

/-- Short-circuit failure: `h.renderError(w, e)` and return, before the
callable is invoked. -/
def errOutcome (e : ApiError) (slots : InputSlots) (adminChecked : Bool) : Outcome :=
  { response := some (.apiErr e), invoked := false, slots := slots, adminChecked := adminChecked }

/-- The gorilla/schema `decoder.Decode`, abstracted to its
success/failure behaviour.  Modelled from the spec's decoder contract
("populate structural value from string-keyed map", "tolerant of unknown
keys on the query path"): a key not among the declared fields is an
error unless `ignoreUnknown`; a declared key whose value fails the
field's conversion is an error.  The decoded free-form values are not
tracked. -/
def schemaDecode (ignoreUnknown : Bool) (shape : InputShape) :
    List (String × String) → Except String Unit
  | [] => .ok ()
  | (k, v) :: rest =>
    if shape.fields.contains k then
      if shape.convertOk k v then schemaDecode ignoreUnknown shape rest
      else .error ("schema: error converting value for " ++ k)
    else if ignoreUnknown then schemaDecode ignoreUnknown shape rest
    else .error ("schema: invalid path " ++ k)

/-- The package `init` calls `decoder.IgnoreUnknownKeys(true)`. -/
def ignoreUnknownKeys : Bool := true

/-- Method `authByHeader`: read the token header, decode it locally, reject a
zero user id outright, and otherwise accept only if the token store
validates the token. -/
def authByHeader (env : Env) (tsValidate : String → Bool) (r : Request) : Int × Int :=
  let token := r.tokenHeader
  let p := env.tokenValidate token
  if p.1 = 0 then (0, 0)
  else if ¬ tsValidate token then (0, 0)
  else p

/-- Header read `apiVersionFromHeader`: the custom version header parsed with
`strutil.ToInt`. -/
def apiVersionFromHeader (r : Request) : Nat := strutilToInt r.versionHeader

/-- Modelled from the spec: `appgo.IdFromStr` (not in the source under
inspection) parses the `id` path segment as a numeric id, 0 when absent
or unparseable. -/
def idFromStr (s : String) : Int := Int.ofNat (strutilToInt s)

/-- The composed method key of `ServeHTTP`: the verb, with the version
appended when `ver > 1 && ver <= maxVersion`. -/
def composedMethod (r : Request) : String :=
  let ver := apiVersionFromHeader r
  if ver > 1 ∧ ver ≤ maxVersion then r.method ++ strutilFromInt ver else r.method

/-- The lookup `h.funcs[method]`. -/
def lookupFunc (funcs : List (String × httpFunc)) (key : String) : Option httpFunc :=
  (funcs.find? (fun p => p.1 = key)).map Prod.snd

/-- The tail of the error branch of `ServeHTTP`, rendering a non-nil
trailing error value.  When the value is not a `*appgo.ApiError`, the
source assigns a generic Internal error to `aerr` inside the `!ok` arm
but never renders it — the `renderError` call sits only in the `else`
arm — so nothing is written.  In document mode an `ECodeRedirect` error
issues `http.Redirect(w, r, aerr.Msg, http.StatusFound)`. -/
def finishErr (htype : HandlerType) (err : ErrVal) (onNil : Option Response)
    (slots : InputSlots) (adminChecked : Bool) : Outcome :=
  match err with
  | .nil => { response := onNil, invoked := true, slots := slots, adminChecked := adminChecked }
  | .api aerr =>
    if htype = .html ∧ aerr.code = ECodeRedirect then
      { response := some (.redirect aerr.msg 302), invoked := true,
        slots := slots, adminChecked := adminChecked }
    else
      { response := some (.apiErr aerr), invoked := true,
        slots := slots, adminChecked := adminChecked }
  | .other _ =>
    { response := none, invoked := true, slots := slots, adminChecked := adminChecked }

/-- The tail of `ServeHTTP` after `f.funcValue.Call`: arity validation
(`rl == 1 || rl == 2 || (rl == 3 && h.htype == HandlerTypeHtml)`), then
the trailing-error check, then the success render (template, data, or
empty object). -/
def renderResult (htype : HandlerType) (res : CallResult)
    (slots : InputSlots) (adminChecked : Bool) : Outcome :=
  match res with
  | .badArity _ =>
    { response := some (.apiErr (NewApiErr ECodeInternal "Bad api-func format")),
      invoked := true, slots := slots, adminChecked := adminChecked }
  | .r1 err => finishErr htype err (some .emptyObj) slots adminChecked
  | .r2 d err => finishErr htype err (some (.data d)) slots adminChecked
  | .r3 d tmpl err =>
    if htype = .html then finishErr htype err (some (.html tmpl d)) slots adminChecked
    else
      { response := some (.apiErr (NewApiErr ECodeInternal "Bad api-func format")),
        invoked := true, slots := slots, adminChecked := adminChecked }

/-- Step 11: invoke the bound callable on the populated input. -/
def invokeCall (htype : HandlerType) (f : httpFunc)
    (slots : InputSlots) (adminChecked : Bool) : Outcome :=
  renderResult htype (f.call slots) slots adminChecked

/-- Step 10 (`f.hasConfVer`): read the config-version header and set the
slot. -/
def stepConfVer (htype : HandlerType) (f : httpFunc) (r : Request)
    (slots : InputSlots) (adminChecked : Bool) : Outcome :=
  if f.hasConfVer then
    invokeCall htype f
      { slots with confVer := some (Int.ofNat (strutilToInt r.confVerHeader)) } adminChecked
  else invokeCall htype f slots adminChecked

/-- Step 9 (`f.hasRequest`): inject the raw request. -/
def stepRequest (htype : HandlerType) (f : httpFunc) (r : Request)
    (slots : InputSlots) (adminChecked : Bool) : Outcome :=
  if f.hasRequest then
    stepConfVer htype f r { slots with requestSet := true } adminChecked
  else stepConfVer htype f r slots adminChecked

/-- Step 8 (`f.hasContent`): decode the body; a decode failure fails
BadRequest, otherwise the content slot is set. -/
def stepContent (htype : HandlerType) (f : httpFunc) (r : Request)
    (slots : InputSlots) (adminChecked : Bool) : Outcome :=
  if f.hasContent then
    match r.bodyDecode with
    | .error e => errOutcome (NewApiErr ECodeBadRequest e) slots adminChecked
    | .ok d => stepRequest htype f r { slots with content := some d } adminChecked
  else stepRequest htype f r slots adminChecked

/-- Step 7 (`f.hasResId`): parse the `id` path variable; zero fails
NotFound, otherwise the resource-id slot is set. -/
def stepResId (htype : HandlerType) (f : httpFunc) (r : Request)
    (slots : InputSlots) (adminChecked : Bool) : Outcome :=
  if f.hasResId then
    if idFromStr r.pathId = 0 then
      errOutcome (NewApiErr ECodeNotFound
        "ResourceId (\x27\x7bid\x7d\x27 in url) required, you could remove ResourceId__ in your input define")
        slots adminChecked
    else stepContent htype f r { slots with resourceId := some (idFromStr r.pathId) } adminChecked
  else stepContent htype f r slots adminChecked

/-- Steps 5–6: the `f.requireAuth` branch, with its `else if
f.requireAdmin` admin branch.  `adminChecked` records that the admin
branch ran (its authenticator call and role check). -/
def stepAuth (env : Env) (htype : HandlerType) (tsValidate : String → Bool)
    (f : httpFunc) (r : Request) (slots : InputSlots) : Outcome :=
  if f.requireAuth then
    let user := (authByHeader env tsValidate r).1
    if user = 0 then
      if f.allowAnonymous then
        stepResId htype f r { slots with userId := some env.anonymousId } false
      else
        errOutcome (NewApiErr ECodeUnauthorized
          "either remove UserId__ in your input define, or add allowAnonymous tag")
          slots false
    else stepResId htype f r { slots with userId := some user } false
  else if f.requireAdmin then
    let p := authByHeader env tsValidate r
    if p.1 = 0 ∨ p.2 ≠ env.roleWebAdmin then
      errOutcome (NewApiErr ECodeUnauthorized
        "admin role required, you could remove AdminUserId__ in your input define")
        slots true
    else stepResId htype f r { slots with adminUserId := some p.1 } true
  else stepResId htype f r slots false

/-- Dispatcher `handler.ServeHTTP`, versioned variant: compose the method key, look
up the Method Binding (NotFound "Bad API version" when absent), build the
input (dummy sentinel or query decode), then run the slot-population
steps, the call, and the result rendering. -/
def ServeHTTP (env : Env) (h : handler) (r : Request) : Outcome :=
  let method := composedMethod r
  match lookupFunc h.funcs method with
  | none => errOutcome (NewApiErr ECodeNotFound "Bad API version") {} false
  | some f =>
    if f.dummyInput then stepAuth env h.htype h.tsValidate f r {}
    else
      match schemaDecode ignoreUnknownKeys f.inputShape r.query with
      | .error e => errOutcome (NewApiErr ECodeBadRequest e) {} false
      | .ok _ => stepAuth env h.htype h.tsValidate f r {}

/-- The method keys `newHandler` registers for a structured-data handler
set, given which method names exist on the set: each probed key whose
lookup finds a function is registered under exactly that key, in probe
order. -/
def registeredKeys (hasMethod : String → Bool) : List String :=
  ((["GET", "POST", "PUT", "DELETE"].map probeKeys).flatten).filter hasMethod

end Server

namespace Server

open Appgo

/-- The trailing error value `returns[rl-1]` of a call result, `none`
for arities outside 1..3. -/
def trailingErr : CallResult → Option ErrVal
  | .r1 e => some e
  | .r2 _ e => some e
  | .r3 _ _ e => some e
  | .badArity _ => none

/-- Sample environment for exercising the `requireAuth` branch. -/
def c5E : Env := ⟨-1, 2, fun _ => (0, 0)⟩

/-- Sample binding with `requireAuth` and `allowAnonymous`. -/
def c5F : httpFunc :=
  ⟨true, false, false, false, false, false, false, true,
    ⟨[], fun _ _ => true⟩, fun _ => .r1 .nil⟩

/-- Sample handler carrying `c5F` under GET. -/
def c5H : handler := ⟨.json, "/p", "", [("GET", c5F)], fun _ => true⟩

/-- Sample tokenless GET request. -/
def c5R : Request := ⟨"GET", "", "", "", [], "", .ok ⟨0⟩⟩

/-- Sample environment for the double-reserved-slot binding. -/
def c9E : Env := ⟨-1, 2, fun _ => (0, 0)⟩

/-- Sample binding declaring both the user-id and the admin-id slot. -/
def c9F : httpFunc :=
  ⟨true, true, false, false, false, false, false, true,
    ⟨[], fun _ _ => true⟩, fun _ => .r1 .nil⟩

/-- Sample handler carrying `c9F` under GET. -/
def c9H : handler := ⟨.json, "/p", "", [("GET", c9F)], fun _ => true⟩

/-- Sample tokenless GET request for the `c9F` binding. -/
def c9R : Request := ⟨"GET", "", "", "", [], "", .ok ⟨0⟩⟩

theorem finishErr_slots (htype : HandlerType) (err : ErrVal) (onNil : Option Response)
    (slots : InputSlots) (b : Bool) :
    (finishErr htype err onNil slots b).slots = slots := by
  cases err with
  | nil => simp [finishErr]
  | api e => simp only [finishErr]; split <;> simp
  | other m => simp [finishErr]

theorem finishErr_adminChecked (htype : HandlerType) (err : ErrVal) (onNil : Option Response)
    (slots : InputSlots) (b : Bool) :
    (finishErr htype err onNil slots b).adminChecked = b := by
  cases err with
  | nil => simp [finishErr]
  | api e => simp only [finishErr]; split <;> simp
  | other m => simp [finishErr]

theorem finishErr_invoked (htype : HandlerType) (err : ErrVal) (onNil : Option Response)
    (slots : InputSlots) (b : Bool) :
    (finishErr htype err onNil slots b).invoked = true := by
  cases err with
  | nil => simp [finishErr]
  | api e => simp only [finishErr]; split <;> simp
  | other m => simp [finishErr]

theorem renderResult_slots (htype : HandlerType) (res : CallResult)
    (slots : InputSlots) (b : Bool) :
    (renderResult htype res slots b).slots = slots := by
  cases res with
  | badArity n => simp [renderResult]
  | r1 e => simp [renderResult, finishErr_slots]
  | r2 d e => simp [renderResult, finishErr_slots]
  | r3 d t e => simp only [renderResult]; split <;> simp [finishErr_slots]

theorem renderResult_adminChecked (htype : HandlerType) (res : CallResult)
    (slots : InputSlots) (b : Bool) :
    (renderResult htype res slots b).adminChecked = b := by
  cases res with
  | badArity n => simp [renderResult]
  | r1 e => simp [renderResult, finishErr_adminChecked]
  | r2 d e => simp [renderResult, finishErr_adminChecked]
  | r3 d t e => simp only [renderResult]; split <;> simp [finishErr_adminChecked]

theorem renderResult_invoked (htype : HandlerType) (res : CallResult)
    (slots : InputSlots) (b : Bool) :
    (renderResult htype res slots b).invoked = true := by
  cases res with
  | badArity n => simp [renderResult]
  | r1 e => simp [renderResult, finishErr_invoked]
  | r2 d e => simp [renderResult, finishErr_invoked]
  | r3 d t e => simp only [renderResult]; split <;> simp [finishErr_invoked]

theorem stepsPreserve (htype : HandlerType) (f : httpFunc) (r : Request)
    (slots : InputSlots) (b : Bool) :
    (stepResId htype f r slots b).adminChecked = b ∧
    (stepResId htype f r slots b).slots.adminUserId = slots.adminUserId ∧
    (stepResId htype f r slots b).slots.userId = slots.userId := by
  unfold stepResId stepContent stepRequest stepConfVer invokeCall
  repeat' split
  all_goals
    simp [errOutcome, renderResult_slots, renderResult_adminChecked]

theorem steps_invoked (htype : HandlerType) (f : httpFunc) (r : Request)
    (slots : InputSlots) (b : Bool)
    (h1 : f.hasResId = true → idFromStr r.pathId ≠ 0)
    (h2 : f.hasContent = true → ∃ d, r.bodyDecode = Except.ok d) :
    (stepResId htype f r slots b).invoked = true := by
  unfold stepResId stepContent stepRequest stepConfVer invokeCall
  repeat' split
  all_goals simp_all [errOutcome, renderResult_invoked]

theorem stepAuth_auth_branch (env : Env) (htype : HandlerType) (ts : String → Bool)
    (f : httpFunc) (r : Request) (slots : InputSlots) (hauth : f.requireAuth = true) :
    (stepAuth env htype ts f r slots).adminChecked = false ∧
    (stepAuth env htype ts f r slots).slots.adminUserId = slots.adminUserId := by
  unfold stepAuth
  simp only [hauth, if_true]
  by_cases hu : (authByHeader env ts r).1 = 0
  · by_cases ha : f.allowAnonymous = true
    · simp only [hu, ha, if_true, reduceIte]
      refine ⟨(stepsPreserve htype f r _ false).1, ?_⟩
      rw [(stepsPreserve htype f r _ false).2.1]
    · simp only [hu, reduceIte]
      rw [if_neg (by simpa using ha)]
      simp [errOutcome]
  · rw [if_neg hu]
    refine ⟨(stepsPreserve htype f r _ false).1, ?_⟩
    rw [(stepsPreserve htype f r _ false).2.1]

theorem ServeHTTP_decode_pass (env : Env) (h : handler) (r : Request) (f : httpFunc)
    (hf : lookupFunc h.funcs (composedMethod r) = some f)
    (hpass : f.dummyInput = true ∨
      schemaDecode ignoreUnknownKeys f.inputShape r.query = Except.ok ()) :
    ServeHTTP env h r = stepAuth env h.htype h.tsValidate f r {} := by
  unfold ServeHTTP
  simp only [hf]
  rcases hpass with hd | hq
  · simp [hd]
  · by_cases hd : f.dummyInput = true
    · simp [hd]
    · have hd2 : f.dummyInput = false := by simpa using hd
      simp [hd2, hq]

end Server

namespace Appgo

/-- C7: `ApiError.HttpError` always writes HTTP status 200 — whatever the
error code — and the failure body it appends is the JSON object carrying
`errcode` (the code as an integer) and `msg` (the message string). -/
theorem c7_http_error_envelope (e : ApiError) (w : Writer) :
    (e.HttpError w).status = some 200 ∧
    (e.HttpError w).body =
      w.body ++ "\n" ++
        ("\x7b\"errcode\":" ++ toString e.code ++ ",\"msg\":\"" ++ jsonEscape e.msg ++ "\"\x7d")
        ++ "\n" := by
  constructor
  · rfl
  · simp [ApiError.HttpError, encoderEncode, httpError, jsonOfApiError, String.append_assoc]

end Appgo

namespace Server

open Appgo

/-- C3: with no Method Binding under the composed method key, `ServeHTTP`
renders NotFound "Bad API version" and never invokes a callable. -/
theorem c3_missing_binding_not_found (env : Env) (h : handler) (r : Request)
    (hf : lookupFunc h.funcs (composedMethod r) = none) :
    (ServeHTTP env h r).response =
      some (.apiErr (NewApiErr ECodeNotFound "Bad API version")) ∧
    (ServeHTTP env h r).invoked = false := by
  simp [ServeHTTP, hf, errOutcome]

theorem c3_witness :
    lookupFunc (handler.mk .json "/p" "" [] (fun _ => true)).funcs
      (composedMethod (Request.mk "GET" "" "" "" [] "" (.ok ⟨0⟩))) = none ∧
    (ServeHTTP (Env.mk (-1) 2 (fun _ => (0, 0)))
        (handler.mk .json "/p" "" [] (fun _ => true))
        (Request.mk "GET" "" "" "" [] "" (.ok ⟨0⟩))).response =
      some (.apiErr (NewApiErr ECodeNotFound "Bad API version")) :=
  ⟨rfl,
   (c3_missing_binding_not_found (Env.mk (-1) 2 (fun _ => (0, 0)))
      (handler.mk .json "/p" "" [] (fun _ => true))
      (Request.mk "GET" "" "" "" [] "" (.ok ⟨0⟩)) rfl).1⟩

/-- C10: a version header that is absent, not a number, 0 or 1, or
greater than `maxVersion` leaves the composed method key at the bare
verb, so dispatch goes to the version-1 binding; it is never itself an
error. -/
theorem c10_version_fallback (r : Request)
    (hv : r.versionHeader = "" ∨
      ¬ r.versionHeader.data.all (fun c => c.isDigit) ∨
      strutilToInt r.versionHeader ≤ 1 ∨ strutilToInt r.versionHeader > maxVersion) :
    composedMethod r = r.method := by
  have h0 : ¬ (apiVersionFromHeader r > 1 ∧ apiVersionFromHeader r ≤ maxVersion) := by
    have hvv : apiVersionFromHeader r = strutilToInt r.versionHeader := rfl
    rcases hv with hv | hv | hv | hv
    · have he : apiVersionFromHeader r = 0 := by
        simp [apiVersionFromHeader, strutilToInt, hv]
      omega
    · have hd : (r.versionHeader.data.all fun c => c.isDigit) = false := by
        simpa using hv
      have he : apiVersionFromHeader r = 0 := by
        simp [apiVersionFromHeader, strutilToInt, hd]
      omega
    · omega
    · omega
  simp only [composedMethod, apiVersionFromHeader] at h0 ⊢
  rw [if_neg h0]

theorem c10_witness :
    ((Request.mk "GET" "100" "" "" [] "" (.ok ⟨0⟩)).versionHeader = "" ∨
      ¬ (Request.mk "GET" "100" "" "" [] "" (.ok ⟨0⟩)).versionHeader.data.all (fun c => c.isDigit) ∨
      strutilToInt (Request.mk "GET" "100" "" "" [] "" (.ok ⟨0⟩)).versionHeader ≤ 1 ∨
      strutilToInt (Request.mk "GET" "100" "" "" [] "" (.ok ⟨0⟩)).versionHeader > maxVersion) ∧
    composedMethod (Request.mk "GET" "100" "" "" [] "" (.ok ⟨0⟩)) = "GET" :=
  ⟨by decide, c10_version_fallback (Request.mk "GET" "100" "" "" [] "" (.ok ⟨0⟩)) (by decide)⟩

/-- C4: with the package-level lenient decoding policy
(`IgnoreUnknownKeys(true)`), query keys matching no declared field never
cause the decode to fail: when every declared-field pair converts, the
decode succeeds whatever unknown keys are present, and a request bearing
such a query passes the decode step of the pipeline. -/
theorem c4_unknown_query_keys_ignored (shape : InputShape) (q : List (String × String))
    (hq : ∀ p ∈ q, shape.fields.contains p.1 = true → shape.convertOk p.1 p.2 = true) :
    schemaDecode ignoreUnknownKeys shape q = Except.ok () ∧
    ∀ (env : Env) (hd : handler) (r : Request) (f : httpFunc),
      lookupFunc hd.funcs (composedMethod r) = some f →
      f.dummyInput = false → f.inputShape = shape → r.query = q →
      ServeHTTP env hd r = stepAuth env hd.htype hd.tsValidate f r {} := by
  have hok : schemaDecode ignoreUnknownKeys shape q = Except.ok () := by
    induction q with
    | nil => rfl
    | cons p rest ih =>
      obtain ⟨k, v⟩ := p
      have hrest := ih (fun p hp => hq p (List.mem_cons_of_mem _ hp))
      simp only [ignoreUnknownKeys] at hrest
      by_cases hk : shape.fields.contains k = true
      · have hc := hq (k, v) (List.mem_cons_self _ _) hk
        simp [schemaDecode, hk, hc, hrest, ignoreUnknownKeys]
      · have hk2 : k ∉ shape.fields := by simpa using hk
        simp [schemaDecode, hk2, ignoreUnknownKeys, hrest]
  refine ⟨hok, ?_⟩
  intro env hd r f hf hdummy hshape hquery
  simp [ServeHTTP, hf, hdummy, hshape, hquery, hok]

theorem c4_witness :
    (∀ p ∈ [("a", "1"), ("zzz", "2")],
      (InputShape.mk ["a"] (fun _ _ => true)).fields.contains p.1 = true →
      (InputShape.mk ["a"] (fun _ _ => true)).convertOk p.1 p.2 = true) ∧
    schemaDecode ignoreUnknownKeys (InputShape.mk ["a"] (fun _ _ => true))
      [("a", "1"), ("zzz", "2")] = Except.ok () :=
  ⟨by decide,
   (c4_unknown_query_keys_ignored (InputShape.mk ["a"] (fun _ _ => true))
      [("a", "1"), ("zzz", "2")] (by decide)).1⟩

/-- C8: `authByHeader` rejects a token whose local decode yields user id
0 without consulting the token store (the result is (0,0) for every
store); for a non-zero decode it consults the store, rejects when the
store says false, and returns the decoded pair exactly when the store
says true. -/
theorem c8_auth_by_header (env : Env) (ts ts2 : String → Bool) (r : Request) :
    ((env.tokenValidate r.tokenHeader).1 = 0 →
      authByHeader env ts r = (0, 0) ∧ authByHeader env ts r = authByHeader env ts2 r) ∧
    ((env.tokenValidate r.tokenHeader).1 ≠ 0 →
      (ts r.tokenHeader = false → authByHeader env ts r = (0, 0)) ∧
      (ts r.tokenHeader = true → authByHeader env ts r = env.tokenValidate r.tokenHeader)) := by
  constructor
  · intro h0
    constructor <;> simp [authByHeader, h0]
  · intro h0
    constructor <;> intro hts <;> simp [authByHeader, h0, hts]

theorem c8_witness :
    (((Env.mk (-1) 2 (fun t => if t = "tok" then (7, 1) else (0, 0))).tokenValidate
        (Request.mk "GET" "" "tok" "" [] "" (.ok ⟨0⟩)).tokenHeader).1 ≠ 0 ∧
      (fun (_ : String) => false) (Request.mk "GET" "" "tok" "" [] "" (.ok ⟨0⟩)).tokenHeader = false) ∧
    authByHeader (Env.mk (-1) 2 (fun t => if t = "tok" then (7, 1) else (0, 0)))
      (fun _ => false) (Request.mk "GET" "" "tok" "" [] "" (.ok ⟨0⟩)) = (0, 0) :=
  ⟨⟨by decide, rfl⟩,
   ((c8_auth_by_header (Env.mk (-1) 2 (fun t => if t = "tok" then (7, 1) else (0, 0)))
      (fun _ => false) (fun _ => false)
      (Request.mk "GET" "" "tok" "" [] "" (.ok ⟨0⟩))).2 (by decide)).1 rfl⟩

/-- C6: in document (HTML) mode, a trailing `ApiError` carrying the
Redirect code makes the dispatcher's result rendering issue an HTTP 302
redirect to the URL in the error's message field — neither a template
nor an error envelope is written. -/
theorem c6_html_redirect (res : CallResult) (slots : InputSlots) (b : Bool) (url : String)
    (h : trailingErr res = some (.api (ApiError.mk ECodeRedirect url))) :
    (renderResult .html res slots b).response = some (.redirect url 302) := by
  cases res with
  | badArity n => simp [trailingErr] at h
  | r1 e =>
    simp only [trailingErr, Option.some.injEq] at h
    subst h
    simp [renderResult, finishErr]
  | r2 d e =>
    simp only [trailingErr, Option.some.injEq] at h
    subst h
    simp [renderResult, finishErr]
  | r3 d t e =>
    simp only [trailingErr, Option.some.injEq] at h
    subst h
    simp [renderResult, finishErr]

theorem c6_witness :
    trailingErr (.r3 ⟨5⟩ "tmplA" (.api (ApiError.mk ECodeRedirect "/login"))) =
      some (.api (ApiError.mk ECodeRedirect "/login")) ∧
    (renderResult .html (.r3 ⟨5⟩ "tmplA" (.api (ApiError.mk ECodeRedirect "/login")))
      {} false).response = some (.redirect "/login" 302) :=
  ⟨rfl, c6_html_redirect (.r3 ⟨5⟩ "tmplA" (.api (ApiError.mk ECodeRedirect "/login")))
    {} false "/login" rfl⟩

/-- C1: a bound handler whose trailing error is non-nil but not a
recognized `*appgo.ApiError` makes `ServeHTTP` write nothing at all: the
generic Internal error is assigned in the `!ok` arm but `renderError` is
never reached, so no error envelope (and no response) is produced. -/
theorem c1_unrecognized_error_writes_nothing :
    (ServeHTTP (Env.mk (-1) 2 (fun _ => (0, 0)))
        (handler.mk .json "/p" ""
          [("GET", httpFunc.mk false false false false false false true false
              (InputShape.mk [] (fun _ _ => true)) (fun _ => .r1 (.other "boom")))]
          (fun _ => true))
        (Request.mk "GET" "" "" "" [] "" (.ok ⟨0⟩))).response = none ∧
    (ServeHTTP (Env.mk (-1) 2 (fun _ => (0, 0)))
        (handler.mk .json "/p" ""
          [("GET", httpFunc.mk false false false false false false true false
              (InputShape.mk [] (fun _ _ => true)) (fun _ => .r1 (.other "boom")))]
          (fun _ => true))
        (Request.mk "GET" "" "" "" [] "" (.ok ⟨0⟩))).invoked = true := by
  constructor <;> rfl

/-- C2: the registration loop's method-name variable accumulates the
version digits across iterations (`m += strutil.FromInt(i)`), so for the
verb GET the probed keys run "GET", "GET2", "GET23", "GET234", …; the
key "GET3" demanded by the claim is never probed, and a handler set
whose only candidate method is "GET3" registers nothing. -/
theorem c2_registration_keys_accumulate :
    (probeKeys "GET").take 4 = ["GET", "GET2", "GET23", "GET234"] ∧
    "GET3" ∈ specKeys "GET" ∧
    "GET3" ∉ probeKeys "GET" ∧
    "GET23" ∈ probeKeys "GET" ∧
    probeKeys "GET" ≠ specKeys "GET" ∧
    registeredKeys (fun m => m = "GET3") = [] := by
  refine ⟨by decide, by decide, by decide, by decide, by decide, by decide⟩

/-- C9: when a binding has both the user-id and the admin-id reserved
slots (`requireAuth` and `requireAdmin` both set), only the
`requireAuth` branch runs: the admin branch (its authenticator call and
role check) never executes and the admin-id slot is never populated. -/
theorem c9_admin_branch_shadowed (env : Env) (h : handler) (r : Request) (f : httpFunc)
    (hf : lookupFunc h.funcs (composedMethod r) = some f)
    (hauth : f.requireAuth = true) (hadmin : f.requireAdmin = true) :
    (ServeHTTP env h r).adminChecked = false ∧
    (ServeHTTP env h r).slots.adminUserId = none := by
  by_cases hpass : f.dummyInput = true ∨
      schemaDecode ignoreUnknownKeys f.inputShape r.query = Except.ok ()
  · rw [ServeHTTP_decode_pass env h r f hf hpass]
    have hsa := stepAuth_auth_branch env h.htype h.tsValidate f r {} hauth
    exact ⟨hsa.1, hsa.2⟩
  · push_neg at hpass
    obtain ⟨hd, hq⟩ := hpass
    have hd2 : f.dummyInput = false := by simpa using hd
    unfold ServeHTTP
    cases hq2 : schemaDecode ignoreUnknownKeys f.inputShape r.query with
    | error e => simp [hf, hd2, hq2, errOutcome]
    | ok u => cases u; exact absurd hq2 hq

theorem c9_witness :
    (lookupFunc c9H.funcs (composedMethod c9R) = some c9F ∧
      c9F.requireAuth = true ∧ c9F.requireAdmin = true) ∧
    (ServeHTTP c9E c9H c9R).adminChecked = false ∧
    (ServeHTTP c9E c9H c9R).slots.adminUserId = none :=
  ⟨⟨rfl, rfl, rfl⟩, c9_admin_branch_shadowed c9E c9H c9R c9F rfl rfl rfl⟩

/-- C5: on a `requireAuth` binding, a zero authentication result with
`allowAnonymous` puts the anonymous sentinel id in the user-id slot and
the pipeline continues (reaching the handler whenever the remaining slot
steps pass); without `allowAnonymous` it fails Unauthorized and the
handler is never invoked; a non-zero result puts that id in the user-id
slot. -/
theorem c5_require_auth (env : Env) (h : handler) (r : Request) (f : httpFunc)
    (hf : lookupFunc h.funcs (composedMethod r) = some f)
    (hauth : f.requireAuth = true)
    (hdummy : f.dummyInput = false)
    (hdec : schemaDecode ignoreUnknownKeys f.inputShape r.query = Except.ok ()) :
    ((authByHeader env h.tsValidate r).1 = 0 → f.allowAnonymous = true →
      (ServeHTTP env h r).slots.userId = some env.anonymousId ∧
      ((f.hasResId = true → idFromStr r.pathId ≠ 0) →
       (f.hasContent = true → ∃ d, r.bodyDecode = Except.ok d) →
       (ServeHTTP env h r).invoked = true)) ∧
    ((authByHeader env h.tsValidate r).1 = 0 → f.allowAnonymous = false →
      (ServeHTTP env h r).response = some (.apiErr (NewApiErr ECodeUnauthorized
        "either remove UserId__ in your input define, or add allowAnonymous tag")) ∧
      (ServeHTTP env h r).invoked = false) ∧
    ((authByHeader env h.tsValidate r).1 ≠ 0 →
      (ServeHTTP env h r).slots.userId = some (authByHeader env h.tsValidate r).1) := by
  rw [ServeHTTP_decode_pass env h r f hf (Or.inr hdec)]
  unfold stepAuth
  simp only [hauth, if_true]
  refine ⟨?_, ?_, ?_⟩
  · intro hu ha
    simp only [hu, ha, if_true, reduceIte]
    constructor
    · rw [(stepsPreserve h.htype f r _ false).2.2]
    · intro h1 h2
      exact steps_invoked h.htype f r _ false h1 h2
  · intro hu ha
    simp only [hu, ha, reduceIte]
    rw [if_neg (by simp [ha])]
    simp [errOutcome]
  · intro hu
    rw [if_neg hu]
    rw [(stepsPreserve h.htype f r _ false).2.2]

theorem c5_witness :
    (lookupFunc c5H.funcs (composedMethod c5R) = some c5F ∧
      c5F.requireAuth = true ∧ c5F.dummyInput = false ∧
      schemaDecode ignoreUnknownKeys c5F.inputShape c5R.query = Except.ok () ∧
      (authByHeader c5E c5H.tsValidate c5R).1 = 0 ∧ c5F.allowAnonymous = true) ∧
    (ServeHTTP c5E c5H c5R).slots.userId = some c5E.anonymousId ∧
    (ServeHTTP c5E c5H c5R).invoked = true :=
  ⟨⟨rfl, rfl, rfl, rfl, rfl, rfl⟩,
   by
     have hc := (c5_require_auth c5E c5H c5R c5F rfl rfl rfl rfl).1 rfl rfl
     exact ⟨hc.1, hc.2 (fun hx => by simp [c5F] at hx) (fun _ => ⟨⟨0⟩, rfl⟩)⟩⟩

end Server
